import Mathlib

/-!
Verification of the InjectiveLabs/metrics telemetry facade.

The Go sources are shallowly embedded as pure Lean functions.  Stateful code
(the process-wide client registry and the function-instrumentation engine)
is modelled by explicit state passing: a `World` record carries the active
sink, the configuration, the log of sink calls ("events") and the state of
every `doneC` completion channel spawned by a timing context.  Go panics
(close of a closed channel, nil-pointer dereference) are modelled with
`Except GoPanic` / `Option`.  Wall-clock durations and goroutine scheduling
are abstracted away: the watchdog goroutine of a timing context is
represented by its completion channel (the goroutine exits exactly when the
channel is closed or its timer fires), and emitted timing durations are not
recorded in the event log since no claim mentions them.

Primary sources: `src/unnamed/part_002` (tag model, reporting engine),
`src/client.go` (registry, `Init`, `checkConfig`), `src/reports.go`
(`CustomReport`).
-/

namespace Metrics

/-! ## Tag model (src/unnamed/part_002, `type Tags map[string]string`)

Go maps are modelled as association lists with unique keys; `tagsInsert`
replaces any existing binding for the key, like a Go map assignment.  Go map
iteration order is unspecified, so no theorem below depends on the order an
association list happens to carry. -/

abbrev Tags := List (String × String)

def tagsFind : Tags → String → Option String
  | [], _ => none
  | p :: rest, k => if p.1 = k then some p.2 else tagsFind rest k

def tagsErase : Tags → String → Tags
  | [], _ => []
  | p :: rest, k => if p.1 = k then tagsErase rest k else p :: tagsErase rest k

/-- Go map assignment `dst[k] = v`: replaces any existing binding of `k`. -/
def tagsInsert (t : Tags) (k v : String) : Tags :=
  (k, v) :: tagsErase t k

def tagsKeys (t : Tags) : List String := t.map Prod.fst

/-- The inner loop of `MergeTags`: `for k, v := range src { dst[k] = v }`. -/
def insertAll (dst : Tags) (src : Tags) : Tags :=
  src.foldl (fun d p => tagsInsert d p.1 p.2) dst

/-- `func MergeTags(original Tags, src ...Tags) Tags` (part_002:283-294):
allocates a fresh map, copies `original` into it, then copies each tag set
of `src` in order (later writes win). -/
def MergeTags (original : Tags) (src : List Tags) : Tags :=
  src.foldl insertAll (insertAll [] original)

def optOr (a b : Option String) : Option String :=
  match a with
  | some v => some v
  | none => b

/-! ## Configuration (src/client.go) -/

def DatadogAgent : String := "datadog"

def TelegrafAgent : String := "telegraf"

/-- `time.Second` in nanoseconds (Go `time.Duration` is an int64 count of
nanoseconds). -/
def timeSecond : Int := 1000000000

def timeMinute : Int := 60 * timeSecond

structure StatterConfig where
  Addr : String
  Prefix : String
  Agent : String
  EnvName : String
  HostName : String
  Version : String
  StuckFunctionTimeout : Int
  MockingEnabled : Bool
  Disabled : Bool
  TracingEnabled : Bool
  ProfilingEnabled : Bool
  deriving DecidableEq

/-- The Go zero value `StatterConfig{}`. -/
def emptyStatterConfig : StatterConfig :=
  { Addr := "", Prefix := "", Agent := "", EnvName := "", HostName := ""
    Version := "", StuckFunctionTimeout := 0, MockingEnabled := false
    Disabled := false, TracingEnabled := false, ProfilingEnabled := false }

/-- `func checkConfig(cfg *StatterConfig) *StatterConfig` (client.go:196-207).
A nil pointer is modelled as `none`. -/
def checkConfig (cfg? : Option StatterConfig) : StatterConfig :=
  let cfg := match cfg? with
    | none => emptyStatterConfig
    | some c => c
  let cfg := if cfg.StuckFunctionTimeout < timeSecond then
      { cfg with StuckFunctionTimeout := 5 * timeMinute } else cfg
  if cfg.EnvName.length = 0 then { cfg with EnvName := "local" } else cfg

/-! ## Tag joining (part_002:356-400).  `JoinTags` and `getSingleTag` read the
process-wide `config`; here the configuration is passed explicitly. -/

/-- `joinTelegrafTags`: renders only `tags[0]`, one `k=v` token per pair. -/
def joinTelegrafTags (tags : List Tags) : List String :=
  match tags with
  | [] => []
  | t0 :: _ => t0.map (fun p => p.1 ++ "=" ++ p.2)

/-- `joinDDTags`: renders only `tags[0]`, one `k:v` token per pair. -/
def joinDDTags (tags : List Tags) : List String :=
  match tags with
  | [] => []
  | t0 :: _ => t0.map (fun p => p.1 ++ ":" ++ p.2)

/-- `func JoinTags(tags ...Tags) []string`: dispatches on the agent. -/
def JoinTags (cfg : StatterConfig) (tags : List Tags) : List String :=
  if cfg.Agent = DatadogAgent then joinDDTags tags else joinTelegrafTags tags

def getSingleTag (cfg : StatterConfig) (key value : String) : String :=
  if cfg.Agent = DatadogAgent then key ++ ":" ++ value else key ++ "=" ++ value

/-! ## Scalar coercion (part_002:403-494, `func ToString(i interface{})`)

A Go `interface{}` argument is modelled by `GoValue`, one constructor per
arm of the type switch.  Integer widths all carry mathematical integers
(no claim involves overflow).  Go's float formatting
(`strconv.FormatFloat(_, 'f', -1, _)`) is not reproducible in the
embedding, so float constructors carry the already-rendered decimal string.
`GoValue.nil` is the untyped nil interface; a typed nil pointer is a `ptr*`
constructor holding `none` (in Go these are distinct: a typed nil pointer
is not `== nil` as an interface).  `GoValue.other` stands for any value of
an unsupported (e.g. structured) type. -/

inductive GoValue where
  | str (s : String)
  | int (n : Int)
  | int8 (n : Int)
  | int16 (n : Int)
  | int32 (n : Int)
  | int64 (n : Int)
  | uint (n : Nat)
  | uint8 (n : Nat)
  | uint16 (n : Nat)
  | uint32 (n : Nat)
  | uint64 (n : Nat)
  | float32 (render : String)
  | float64 (render : String)
  | ptrStr (p : Option String)
  | ptrInt (p : Option Int)
  | ptrInt8 (p : Option Int)
  | ptrInt16 (p : Option Int)
  | ptrInt32 (p : Option Int)
  | ptrInt64 (p : Option Int)
  | ptrUint (p : Option Nat)
  | ptrUint8 (p : Option Nat)
  | ptrUint16 (p : Option Nat)
  | ptrUint32 (p : Option Nat)
  | ptrUint64 (p : Option Nat)
  | ptrFloat32 (p : Option String)
  | ptrFloat64 (p : Option String)
  | bool (b : Bool)
  | ptrBool (p : Option Bool)
  | nil
  | other
  deriving DecidableEq

/-- `strconv.FormatBool`. -/
def formatBool (b : Bool) : String := if b then "true" else "false"

/-- `func ToString(i interface{}) (v string, ok bool)`.  `none` models a Go
runtime panic.  Every pointer case except `*bool` is guarded by
`if x != nil`, leaving `v` at its zero value `""` for a nil pointer; the
`*bool` case dereferences unconditionally (`v = strconv.FormatBool(*x)`), so
a nil `*bool` panics. -/
def ToString : GoValue → Option (String × Bool)
  | .str s => some (s, true)
  | .int n => some (toString n, true)
  | .int8 n => some (toString n, true)
  | .int16 n => some (toString n, true)
  | .int32 n => some (toString n, true)
  | .int64 n => some (toString n, true)
  | .uint n => some (toString n, true)
  | .uint8 n => some (toString n, true)
  | .uint16 n => some (toString n, true)
  | .uint32 n => some (toString n, true)
  | .uint64 n => some (toString n, true)
  | .float32 r => some (r, true)
  | .float64 r => some (r, true)
  | .ptrStr p => some (p.getD "", true)
  | .ptrInt p => some ((p.map toString).getD "", true)
  | .ptrInt8 p => some ((p.map toString).getD "", true)
  | .ptrInt16 p => some ((p.map toString).getD "", true)
  | .ptrInt32 p => some ((p.map toString).getD "", true)
  | .ptrInt64 p => some ((p.map toString).getD "", true)
  | .ptrUint p => some ((p.map toString).getD "", true)
  | .ptrUint8 p => some ((p.map toString).getD "", true)
  | .ptrUint16 p => some ((p.map toString).getD "", true)
  | .ptrUint32 p => some ((p.map toString).getD "", true)
  | .ptrUint64 p => some ((p.map toString).getD "", true)
  | .ptrFloat32 p => some (p.getD "", true)
  | .ptrFloat64 p => some (p.getD "", true)
  | .bool b => some (formatBool b, true)
  | .ptrBool (some b) => some (formatBool b, true)
  | .ptrBool none => none
  | .nil => some ("nil", true)
  | .other => some ("", false)

/-- One iteration of the `AddPairs` loop body for the pair `(kv, v)`:
skip non-string keys, special-case the untyped nil value, otherwise coerce
with `ToString` and skip not-ok values.  `none` models a panic escaping the
loop. -/
def addPairStep (t : Tags) (kv v : GoValue) : Option Tags :=
  match kv with
  | .str k =>
    match v with
    | .nil => some (tagsInsert t k "nil")
    | _ =>
      match Metrics.ToString v with
      | none => none
      | some (s, ok) => if ok then some (tagsInsert t k s) else some t
  | _ => some t

/-- `func AddPairs(t Tags, tags ...interface{}) Tags` (part_002:296-322).
The loop steps by 2 and breaks when `i+1 >= len(tags)`, dropping a trailing
unpaired element.  (A nil `t` is made fresh in Go; the empty list plays
that role here.) -/
def AddPairs : Tags → List GoValue → Option Tags
  | t, [] => some t
  | t, [_] => some t
  | t, kv :: v :: rest =>
    match addPairStep t kv v with
    | none => none
    | some t' => AddPairs t' rest

/-- An argument to `Combine`: the type switch distinguishes `Tags`,
`[]interface{}` and everything else (accumulated as a flat pair list). -/
inductive GoArg where
  | tags (t : Tags)
  | slice (l : List GoValue)
  | val (v : GoValue)

/-- The loop of `Combine` with its two accumulators `tt` and `pairs`,
finished by `AddPairs(tt, pairs...)`. -/
def combineGo : List GoArg → Tags → List GoValue → Option Tags
  | [], tt, pairs => AddPairs tt pairs
  | .tags t :: rest, tt, pairs => combineGo rest (insertAll tt t) pairs
  | .slice l :: rest, tt, pairs =>
    match AddPairs tt l with
    | none => none
    | some tt' => combineGo rest tt' pairs
  | .val v :: rest, tt, pairs => combineGo rest tt (pairs ++ [v])

/-- `func Combine(tags ...interface{}) Tags` (part_002:324-340). -/
def Combine (args : List GoArg) : Option Tags := combineGo args [] []

/-! ## Process-wide client registry (src/client.go)

The registry's mutable globals (`client`, `config`, `tracer`) are gathered
in `RegState`.  The external sink constructors (`dogstatsd.New`,
`newTelegrafStatter`) and `profiler.Start` are outside the repository, so
their success or failure is supplied by an `ExtOracles` record; `Init` only
routes their results.  The mutex discipline has no observable effect in a
sequential model and is elided. -/

inductive Sink where
  | mock
  | dogstatsd
  | telegraf
  deriving DecidableEq

structure RegState where
  client : Option Sink
  config : Option StatterConfig
  tracerOn : Bool
  deriving DecidableEq

/-- Results of the external constructors called by `Init`. -/
structure ExtOracles where
  dogstatsdNew : Except String Unit
  telegrafNew : Except String Unit
  profilerStart : Except String Unit

inductive InitOutcome where
  | ok
  | errUnsupportedAgent
  | errStatsdInit (msg : String)
  | errProfiler (msg : String)
  | panicNilConfig
  deriving DecidableEq

/-- `func Disable()` (client.go:96-102): normalizes a nil config, installs
the mock statter, clears the tracer. -/
def Disable (st : RegState) : RegState :=
  { st with config := some (checkConfig none), client := some .mock,
            tracerOn := false }

/-- `func Init(addr string, prefix string, cfg *StatterConfig) error`
(client.go:108-172).  The first statement reads `cfg.Disabled`, so a nil
`cfg` panics before `checkConfig` can substitute a default
(`panicNilConfig`).  A disabled or mocking-enabled configuration installs
the mock statter and returns nil without consulting the agent switch; only
the remaining configurations reach the `datadog`/`telegraf`/default switch. -/
def Init (cfg? : Option StatterConfig) (ext : ExtOracles) (st : RegState) :
    InitOutcome × RegState :=
  match cfg? with
  | none => (.panicNilConfig, st)
  | some cfg =>
    if cfg.Disabled then (.ok, Disable st)
    else
      let conf := checkConfig (some cfg)
      let st := { st with config := some conf }
      if conf.MockingEnabled then (.ok, { st with client := some .mock })
      else if cfg.Agent = DatadogAgent then
        match ext.dogstatsdNew with
        | .error e => (.errStatsdInit e, st)
        | .ok _ =>
          let st := { st with client := some .dogstatsd }
          let st := if cfg.TracingEnabled then { st with tracerOn := true } else st
          if cfg.ProfilingEnabled then
            match ext.profilerStart with
            | .error e => (.errProfiler e, st)
            | .ok _ => (.ok, st)
          else (.ok, st)
      else if cfg.Agent = TelegrafAgent then
        match ext.telegrafNew with
        | .error e => (.errStatsdInit e, st)
        | .ok _ => (.ok, { st with client := some .telegraf })
      else (.errUnsupportedAgent, st)

/-! ## Function instrumentation engine (src/unnamed/part_002)

`World` is the engine's observable state: the active sink, configuration,
the ordered log of sink calls, and one `Bool` per `doneC` channel spawned
by a timing context (`true` = closed).  A stop callback is represented by
the data it captures (`StopFn`); `runStop` is the closure body at
part_002:187-199.  The watchdog goroutine of channel `cid` blocks on
`select { doneC / timer }`; it exits (is not leaked) once its channel is
closed, which `watchdogStopped` expresses. -/

inductive Event where
  | incr (name : String) (tags : List String) (rate : ℚ)
  | count (name : String) (value : Int) (tags : List String) (rate : ℚ)
  | timing (name : String) (tags : List String) (rate : ℚ)
  deriving DecidableEq

def Event.name : Event → String
  | .incr n _ _ => n
  | .count n _ _ _ => n
  | .timing n _ _ => n

structure World where
  client : Option Sink
  config : StatterConfig
  tracerOn : Bool
  events : List Event
  channels : List Bool
  deriving DecidableEq

inductive StopFn where
  | noop
  | real (chanId : Nat) (tagArray : List String)
  deriving DecidableEq

inductive GoPanic where
  | closedChannel
  | nilPointer
  deriving DecidableEq

/-- The static sampling rate `0.77` of the `func.*` counters. -/
def sampleRate : ℚ := 77 / 100

/-- `func reportFunc(fn, action string, tags ...Tags)` (part_002:113-123):
no-op without a client; otherwise emits `Incr("func."+action)` with the
joined tags plus the `func_name` tag appended last, at rate 0.77. -/
def reportFunc (fn action : String) (tags : List Tags) (w : World) : World :=
  match w.client with
  | none => w
  | some _ =>
    let tagArray := JoinTags w.config tags ++ [getSingleTag w.config "func_name" fn]
    { w with events := w.events ++ [.incr ("func." ++ action) tagArray sampleRate] }

/-- `func ReportClosureFuncError(name string, tags ...Tags)` (part_002:38-40). -/
def ReportClosureFuncError (name : String) (tags : List Tags) (w : World) : World :=
  reportFunc name "error" tags w

/-- `func reportTiming(ctx, fn, tags ...Tags) (context.Context, StopTimerFunc)`
(part_002:136-200).  Contexts are opaque identifiers; when a tracer is
active a fresh span context is returned, otherwise the context is returned
unchanged.  Without a client it returns the untouched context, a no-op stop
function, and spawns nothing.  Otherwise it allocates a fresh open `doneC`
channel (the watchdog) and captures the tag array — joined start tags plus
the `func_name` tag — in the stop closure.  An empty `fn` is replaced by
the runtime caller name, supplied here as `callerName`. -/
def reportTiming (ctx : Nat) (callerName : String) (fn : String)
    (tags : List Tags) (w : World) : Nat × StopFn × World :=
  match w.client with
  | none => (ctx, .noop, w)
  | some _ =>
    let fn := if fn = "" then callerName else fn
    let spanCtx := if w.tracerOn then ctx + 1 else ctx
    let tagArray := JoinTags w.config tags ++ [getSingleTag w.config "func_name" fn]
    let cid := w.channels.length
    (spanCtx, .real cid tagArray, { w with channels := w.channels ++ [false] })

/-- The stop closure returned by `reportTiming` (part_002:187-199) and by
`ReportClosureFuncTiming` (part_002:229-237): `close(doneC)` first — a Go
panic if the channel is already closed — then `client.Timing("func.timing")`
with the captured tag array followed by the joined stop-time tags, at
rate 1. -/
def runStop (s : StopFn) (stopTags : List Tags) (w : World) : Except GoPanic World :=
  match s with
  | .noop => .ok w
  | .real cid tagArray =>
    match w.channels[cid]? with
    | some false =>
      let w1 : World := { w with channels := w.channels.set cid true }
      let stopTagArray := tagArray ++ JoinTags w1.config stopTags
      match w1.client with
      | some _ =>
        .ok { w1 with events := w1.events ++ [.timing "func.timing" stopTagArray 1] }
      | none => .error .nilPointer
    | _ => .error .closedChannel

/-- The watchdog goroutine of channel `cid` has been released: its `doneC`
was closed, so its `select` returns and the goroutine exits. -/
def watchdogStopped (w : World) (cid : Nat) : Prop :=
  w.channels[cid]? = some true

/-- `func ReportClosureFuncTiming(name string, tags ...Tags) StopTimerFunc`
(part_002:202-238): same shape as `reportTiming` but with an explicit name
and no span.  Its returned closure is `runStop` on the produced `StopFn`. -/
def ReportClosureFuncTiming (name : String) (tags : List Tags) (w : World) :
    StopFn × World :=
  match w.client with
  | none => (.noop, w)
  | some _ =>
    let tagArray := JoinTags w.config tags ++ [getSingleTag w.config "func_name" name]
    let cid := w.channels.length
    (.real cid tagArray, { w with channels := w.channels ++ [false] })

/-- The closure returned by `ReportNamedFuncCallAndTimingWithErr`
(part_002:100-106), by its captured data. -/
structure ErrClosure where
  fn : String
  tags : List Tags
  stop : StopFn

/-- `func ReportNamedFuncCallAndTimingWithErr(fn string, tags ...Tags)`
(part_002:97-107): emits the "called" counter, starts the timing context on
`context.Background()`, and returns the deferred closure. -/
def ReportNamedFuncCallAndTimingWithErr (fn : String) (tags : List Tags)
    (w : World) : ErrClosure × World :=
  let w1 := reportFunc fn "called" tags w
  let r := reportTiming 0 "" fn tags w1
  ({ fn := fn, tags := tags, stop := r.2.1 }, r.2.2)

/-- The body of the closure returned by `ReportNamedFuncCallAndTimingWithErr`:
`stop(stopTags...)`, then, when the observed error is non-nil, an "error"
counter on the merged tag set. -/
def runErrClosure (c : ErrClosure) (isErr : Bool) (stopTags : List Tags)
    (w : World) : Except GoPanic World :=
  match runStop c.stop stopTags w with
  | .error p => .error p
  | .ok w1 =>
    if isErr then
      .ok (ReportClosureFuncError c.fn [MergeTags (MergeTags [] c.tags) stopTags] w1)
    else .ok w1

/-- `func CustomReport(reportFn func(s Statter, tagSpec []string), tags ...Tags)`
(src/reports.go:11-20): no-op without a client; otherwise hands the sink and
the joined tags to the caller's closure, modelled as the list of sink calls
it performs for a given tag spec. -/
def CustomReport (emit : List String → List Event) (tags : List Tags)
    (w : World) : World :=
  match w.client with
  | none => w
  | some _ => { w with events := w.events ++ emit (JoinTags w.config tags) }

/-! ## Concrete fixtures used by witnesses and counterexamples -/

def cfg0 : StatterConfig :=
  { emptyStatterConfig with Agent := TelegrafAgent, EnvName := "local",
                            StuckFunctionTimeout := 5 * timeMinute }

def w0 : World :=
  { client := some .telegraf, config := cfg0, tracerOn := false,
    events := [], channels := [] }

def wNoClient : World := { w0 with client := none }

def st0 : RegState := { client := none, config := none, tracerOn := false }

def ext0 : ExtOracles :=
  { dogstatsdNew := .ok (), telegrafNew := .ok (), profilerStart := .ok () }

def cfgBadMock : StatterConfig :=
  { emptyStatterConfig with Agent := "statsite", MockingEnabled := true }

/-! ## Helper lemmas -/

theorem getElem?_concat_len (l : List α) (a : α) : (l ++ [a])[l.length]? = some a := by
  induction l with
  | nil => rfl
  | cons x xs ih => simp [ih]

theorem set_concat_len (l : List α) (a b : α) :
    (l ++ [a]).set l.length b = l ++ [b] := by
  induction l with
  | nil => rfl
  | cons x xs ih => simp [ih]

theorem tagsFind_erase_ne (t : Tags) (k k' : String) (h : k' ≠ k) :
    tagsFind (tagsErase t k) k' = tagsFind t k' := by
  induction t with
  | nil => rfl
  | cons p rest ih =>
    by_cases hp : p.1 = k
    · have hp' : ¬ p.1 = k' := fun e => h (e.symm.trans hp)
      simp only [tagsErase, if_pos hp, tagsFind, if_neg hp', ih]
    · simp only [tagsErase, if_neg hp, tagsFind, ih]

theorem tagsFind_insert (t : Tags) (k v k' : String) :
    tagsFind (tagsInsert t k v) k' = if k' = k then some v else tagsFind t k' := by
  by_cases hk : k' = k
  · subst hk
    simp [tagsInsert, tagsFind]
  · have hk2 : ¬ (k = k') := fun e => hk e.symm
    simp only [tagsInsert, tagsFind, if_neg hk2, if_neg hk,
      tagsFind_erase_ne t k k' hk]

theorem tagsFind_eq_none_of_not_mem (t : Tags) (k : String)
    (h : k ∉ tagsKeys t) : tagsFind t k = none := by
  induction t with
  | nil => rfl
  | cons p rest ih =>
    simp only [tagsKeys, List.map_cons, List.mem_cons, not_or] at h
    simp only [tagsFind, if_neg (fun e : p.1 = k => h.1 e.symm)]
    exact ih h.2

theorem insertAll_find (src : Tags) : ∀ (d : Tags), (tagsKeys src).Nodup →
    ∀ k, tagsFind (insertAll d src) k = optOr (tagsFind src k) (tagsFind d k) := by
  induction src with
  | nil =>
    intro d _ k
    simp [insertAll, tagsFind, optOr]
  | cons p rest ih =>
    intro d hsrc k
    simp only [tagsKeys, List.map_cons, List.nodup_cons] at hsrc
    rw [show insertAll d (p :: rest) = insertAll (tagsInsert d p.1 p.2) rest from rfl,
        ih (tagsInsert d p.1 p.2) hsrc.2 k]
    by_cases hk : p.1 = k
    · have hrest : tagsFind rest k = none :=
        tagsFind_eq_none_of_not_mem _ _ (hk ▸ hsrc.1)
      rw [hrest, tagsFind_insert, if_pos hk.symm]
      simp only [optOr, tagsFind, if_pos hk]
    · rw [tagsFind_insert, if_neg (fun e : k = p.1 => hk e.symm)]
      simp only [tagsFind, if_neg hk]

theorem combineGo_vals (args : List GoValue) (tt : Tags) (pairs : List GoValue) :
    combineGo (args.map GoArg.val) tt pairs = AddPairs tt (pairs ++ args) := by
  induction args generalizing pairs with
  | nil => simp [combineGo]
  | cons v rest ih =>
    simp only [List.map_cons, combineGo, ih, List.append_assoc, List.cons_append,
      List.nil_append]

theorem addPairs_odd (t : Tags) (args : List GoValue) (h : args.length % 2 = 1) :
    AddPairs t args = AddPairs t args.dropLast := by
  match args with
  | [] => simp at h
  | [x] => simp [AddPairs, List.dropLast]
  | kv :: v :: rest =>
    have hr : rest.length % 2 = 1 := by
      simp only [List.length_cons] at h
      omega
    match rest with
    | [] => simp at hr
    | r :: rs =>
      show AddPairs t (kv :: v :: r :: rs) = AddPairs t (kv :: v :: (r :: rs).dropLast)
      simp only [AddPairs]
      cases addPairStep t kv v with
      | none => rfl
      | some t' => exact addPairs_odd t' (r :: rs) hr

/-! ## Claim theorems -/

/-- Claim C3: for all tag sets `A` and `B` (well-formed Go maps: no duplicate
keys), `MergeTags A B` maps every key present in `B` to `B`'s value and every
other key of `A` to `A`'s value (right-biased, last writer wins), and its key
set is exactly the union of the key sets of `A` and `B`.  (`MergeTags` writes
only into a freshly allocated map, so the pure embedding reflects that
neither input is mutated.) -/
theorem mergeTags_union_right_biased (A B : Tags) (hA : (tagsKeys A).Nodup)
    (hB : (tagsKeys B).Nodup) (k : String) :
    tagsFind (MergeTags A [B]) k = optOr (tagsFind B k) (tagsFind A k) ∧
    (tagsFind (MergeTags A [B]) k).isSome
      = ((tagsFind A k).isSome || (tagsFind B k).isSome) := by
  have h1 : tagsFind (MergeTags A [B]) k = optOr (tagsFind B k) (tagsFind A k) := by
    show tagsFind (insertAll (insertAll [] A) B) k = _
    rw [insertAll_find B _ hB k, insertAll_find A [] hA k]
    cases tagsFind B k <;> cases tagsFind A k <;> simp [optOr, tagsFind]
  refine ⟨h1, ?_⟩
  rw [h1]
  cases tagsFind B k <;> cases tagsFind A k <;> simp [optOr]

theorem mergeTags_union_right_biased_witness :
    (tagsKeys [("a", "1"), ("b", "2")]).Nodup ∧
    (tagsKeys [("b", "3"), ("c", "4")]).Nodup ∧
    (tagsFind (MergeTags [("a", "1"), ("b", "2")] [[("b", "3"), ("c", "4")]]) "b"
        = optOr (tagsFind [("b", "3"), ("c", "4")] "b")
            (tagsFind [("a", "1"), ("b", "2")] "b") ∧
      (tagsFind (MergeTags [("a", "1"), ("b", "2")] [[("b", "3"), ("c", "4")]]) "b").isSome
        = ((tagsFind [("a", "1"), ("b", "2")] "b").isSome
            || (tagsFind [("b", "3"), ("c", "4")] "b").isSome)) :=
  ⟨by decide, by decide,
    mergeTags_union_right_biased [("a", "1"), ("b", "2")] [("b", "3"), ("c", "4")]
      (by decide) (by decide) "b"⟩

/-- Claim C4 (code bug): `ToString` handles every supported scalar, but its
`*bool` case dereferences without the nil guard that every other pointer
case has, so a nil `*bool` panics instead of returning `(v, true)`.  The
surrounding conjuncts evaluate `ToString` on representatives of the
supported and unsupported cases, matching the repository's own test table
(`TestToString`); note also that a nil typed pointer of the guarded cases
yields the zero value `""` with `ok = true`. -/
theorem toString_eval_nil_bool_ptr :
    Metrics.ToString (GoValue.ptrBool none) = none ∧
    Metrics.ToString (GoValue.str "test") = some ("test", true) ∧
    Metrics.ToString (GoValue.int 42) = some ("42", true) ∧
    Metrics.ToString (GoValue.uint64 42) = some ("42", true) ∧
    Metrics.ToString (GoValue.bool true) = some ("true", true) ∧
    Metrics.ToString (GoValue.ptrBool (some true)) = some ("true", true) ∧
    Metrics.ToString (GoValue.ptrInt (some 42)) = some ("42", true) ∧
    Metrics.ToString (GoValue.ptrInt none) = some ("", true) ∧
    Metrics.ToString GoValue.nil = some ("nil", true) ∧
    Metrics.ToString GoValue.other = some ("", false) := by
  refine ⟨rfl, rfl, rfl, rfl, rfl, rfl, rfl, rfl, rfl, rfl⟩

/-- Claim C5 counterexample: a configuration whose agent is the unrecognized
`"statsite"` but with `MockingEnabled` set makes `Init` succeed and install
the mock sink — it never reaches the agent switch, refuting "for every
configuration whose agent discriminator is neither datadog nor telegraf,
Init fails with ErrUnsupportedAgent instead of installing a sink". -/
theorem init_unsupported_agent_cex :
    (Init (some cfgBadMock) ext0 st0).1 = InitOutcome.ok ∧
    (Init (some cfgBadMock) ext0 st0).2.client = some Sink.mock :=
  ⟨rfl, rfl⟩

/-- Claim C5 (amended): for every configuration that is not disabled and not
mocking-enabled, an agent discriminator other than "datadog" and "telegraf"
makes `Init` fail with `ErrUnsupportedAgent`, leaving the sink untouched
(disabled or mocking-enabled configurations instead install the mock sink
without consulting the agent). -/
theorem init_unsupported_agent_amended (cfg : StatterConfig) (ext : ExtOracles)
    (st : RegState) (hD : cfg.Disabled = false) (hM : cfg.MockingEnabled = false)
    (h1 : cfg.Agent ≠ DatadogAgent) (h2 : cfg.Agent ≠ TelegrafAgent) :
    (Init (some cfg) ext st).1 = InitOutcome.errUnsupportedAgent ∧
    (Init (some cfg) ext st).2.client = st.client := by
  have hM' : (checkConfig (some cfg)).MockingEnabled = false := by
    simp only [checkConfig]
    split <;> split <;> exact hM
  constructor <;>
    simp [Init, hD, hM', h1, h2]

theorem init_unsupported_agent_amended_witness :
    ({ emptyStatterConfig with Agent := "statsite" } : StatterConfig).Disabled = false ∧
    ({ emptyStatterConfig with Agent := "statsite" } : StatterConfig).MockingEnabled = false ∧
    ({ emptyStatterConfig with Agent := "statsite" } : StatterConfig).Agent ≠ DatadogAgent ∧
    ({ emptyStatterConfig with Agent := "statsite" } : StatterConfig).Agent ≠ TelegrafAgent ∧
    ((Init (some { emptyStatterConfig with Agent := "statsite" }) ext0 st0).1
        = InitOutcome.errUnsupportedAgent ∧
      (Init (some { emptyStatterConfig with Agent := "statsite" }) ext0 st0).2.client
        = st0.client) :=
  ⟨rfl, rfl, by decide, by decide,
    init_unsupported_agent_amended { emptyStatterConfig with Agent := "statsite" }
      ext0 st0 rfl rfl (by decide) (by decide)⟩

/-- Claim C6 counterexample: `Init` reads `cfg.Disabled` before calling
`checkConfig`, so a nil configuration passed to `Init` panics with a nil
pointer dereference instead of being replaced by a default configuration;
the registry is left untouched. -/
theorem init_nil_config_panics_cex :
    (Init none ext0 st0).1 = InitOutcome.panicNilConfig ∧
    (Init none ext0 st0).2 = st0 :=
  ⟨rfl, rfl⟩

/-- Claim C6 (amended): normalization (`checkConfig`) clamps a
`StuckFunctionTimeout` below one second up to the five-minute default and
keeps values of one second or more unchanged, and defaults an unset
environment name to "local"; `checkConfig` itself replaces a nil
configuration by a normalized default one, but `Init` dereferences the
configuration before normalizing, so a nil configuration passed to `Init`
panics rather than being normalized. -/
theorem checkConfig_normalization (cfg : StatterConfig) (ext : ExtOracles)
    (st : RegState) :
    (checkConfig (some cfg)).StuckFunctionTimeout =
      (if cfg.StuckFunctionTimeout < timeSecond then 5 * timeMinute
        else cfg.StuckFunctionTimeout) ∧
    (checkConfig (some cfg)).EnvName =
      (if cfg.EnvName.length = 0 then "local" else cfg.EnvName) ∧
    checkConfig none =
      { emptyStatterConfig with StuckFunctionTimeout := 5 * timeMinute,
                                EnvName := "local" } ∧
    (Init none ext st).1 = InitOutcome.panicNilConfig := by
  refine ⟨?_, ?_, rfl, rfl⟩ <;>
    · by_cases h1 : cfg.StuckFunctionTimeout < timeSecond <;>
        by_cases h2 : cfg.EnvName.length = 0 <;>
          simp [checkConfig, h1, h2]

/-- Claim C7: a flat key/value argument list of odd length behaves exactly
like the list with its trailing unpaired element removed, for `AddPairs` and
for `Combine` on flat scalar arguments: the trailing element contributes no
pair, all preceding complete pairs are processed, and no new failure is
introduced by the odd length. -/
theorem addPairs_odd_trailing_dropped (t : Tags) (args : List GoValue)
    (h : args.length % 2 = 1) :
    AddPairs t args = AddPairs t args.dropLast ∧
    Combine (args.map GoArg.val) = AddPairs [] args.dropLast := by
  refine ⟨addPairs_odd t args h, ?_⟩
  show combineGo (args.map GoArg.val) [] [] = _
  rw [combineGo_vals args [] [], List.nil_append]
  exact addPairs_odd [] args h

theorem addPairs_odd_trailing_dropped_witness :
    ([GoValue.str "k", GoValue.int 1, GoValue.str "trailing"].length % 2 = 1) ∧
    (AddPairs [("x", "0")] [GoValue.str "k", GoValue.int 1, GoValue.str "trailing"]
        = AddPairs [("x", "0")]
            ([GoValue.str "k", GoValue.int 1, GoValue.str "trailing"]).dropLast ∧
      Combine ([GoValue.str "k", GoValue.int 1, GoValue.str "trailing"].map GoArg.val)
        = AddPairs [] ([GoValue.str "k", GoValue.int 1, GoValue.str "trailing"]).dropLast) :=
  ⟨by decide,
    addPairs_odd_trailing_dropped [("x", "0")]
      [GoValue.str "k", GoValue.int 1, GoValue.str "trailing"] (by decide)⟩

theorem joinTags_cons (cfg : StatterConfig) (t0 : Tags) (r : List Tags) :
    JoinTags cfg (t0 :: r) =
      t0.map (fun p =>
        p.1 ++ (if cfg.Agent = DatadogAgent then ":" else "=") ++ p.2) := by
  simp only [JoinTags, joinDDTags, joinTelegrafTags]
  split <;> simp_all

/-- Claim C10: `JoinTags` renders exactly the pairs of the first tag set in
the configured style and ignores every tag set after the first; hence
`reportFunc` emits the same metric whether or not extra tag sets follow the
first. -/
theorem joinTags_first_only (cfg : StatterConfig) (t0 : Tags)
    (rest rest' : List Tags) (fn action : String) (w : World) :
    JoinTags cfg (t0 :: rest) =
      t0.map (fun p =>
        p.1 ++ (if cfg.Agent = DatadogAgent then ":" else "=") ++ p.2) ∧
    JoinTags cfg (t0 :: rest) = JoinTags cfg (t0 :: rest') ∧
    reportFunc fn action (t0 :: rest) w = reportFunc fn action [t0] w := by
  refine ⟨joinTags_cons cfg t0 rest,
    (joinTags_cons cfg t0 rest).trans (joinTags_cons cfg t0 rest').symm, ?_⟩
  cases hc : w.client with
  | none => simp [reportFunc, hc]
  | some s =>
    simp [reportFunc, hc,
      (joinTags_cons w.config t0 rest).trans (joinTags_cons w.config t0 []).symm]

/-- Claim C2: while the registry holds no client, every reporting operation
is a silent no-op: `reportFunc` and `CustomReport` record no sink call and
leave the world unchanged, and `reportTiming` returns the unchanged context
together with a no-op stop function and spawns no watchdog channel; running
the no-op stop function records nothing and cannot fail. -/
theorem no_sink_reporting_noop (w : World) (h : w.client = none) (ctx : Nat)
    (caller fn action : String) (tags stopTags : List Tags)
    (emit : List String → List Event) :
    reportFunc fn action tags w = w ∧
    reportTiming ctx caller fn tags w = (ctx, .noop, w) ∧
    runStop .noop stopTags w = .ok w ∧
    CustomReport emit tags w = w := by
  refine ⟨?_, ?_, rfl, ?_⟩ <;> simp [reportFunc, reportTiming, CustomReport, h]

theorem no_sink_reporting_noop_witness :
    wNoClient.client = none ∧
    (reportFunc "f" "called" [] wNoClient = wNoClient ∧
      reportTiming 7 "caller" "f" [] wNoClient = (7, .noop, wNoClient) ∧
      runStop .noop [] wNoClient = .ok wNoClient ∧
      CustomReport (fun ts => [Event.count "pubsub.dropped" 3 ts 1]) [] wNoClient
        = wNoClient) :=
  ⟨rfl, no_sink_reporting_noop wNoClient rfl 7 "caller" "f" "called" [] []
    (fun ts => [Event.count "pubsub.dropped" 3 ts 1])⟩

theorem reportTiming_some (w : World) (s : Sink) (h : w.client = some s)
    (ctx : Nat) (caller fn : String) (tags : List Tags) :
    reportTiming ctx caller fn tags w =
      ((if w.tracerOn then ctx + 1 else ctx),
        .real w.channels.length
          (JoinTags w.config tags ++
            [getSingleTag w.config "func_name" (if fn = "" then caller else fn)]),
        { w with channels := w.channels ++ [false] }) := by
  simp [reportTiming, h]

theorem runStop_fresh (w : World) (s : Sink) (h : w.client = some s)
    (arr : List String) (stopTags : List Tags) :
    runStop (.real w.channels.length arr) stopTags
        { w with channels := w.channels ++ [false] } =
      .ok { w with channels := w.channels ++ [true],
                   events := w.events ++
                     [.timing "func.timing" (arr ++ JoinTags w.config stopTags) 1] } := by
  simp [runStop, getElem?_concat_len, set_concat_len, h]

theorem runStop_closed (w : World) (cid : Nat) (arr : List String)
    (stopTags : List Tags) (h : w.channels[cid]? = some true) :
    runStop (.real cid arr) stopTags w = .error .closedChannel := by
  simp [runStop, h]

/-- Claim C1 counterexample: with a client configured, invoking the stop
callback of a timing context a second time panics — the closure begins with
`close(doneC)`, and closing a closed channel is a Go runtime panic — so
"calling stop more than once does not panic" fails on the code. -/
theorem stop_twice_panics_cex :
    runStop (reportTiming 0 "" "f" [] w0).2.1 [] (reportTiming 0 "" "f" [] w0).2.2
      = .ok { w0 with
              channels := [true],
              events := [.timing "func.timing" ["func_name=f"] 1] } ∧
    runStop (reportTiming 0 "" "f" [] w0).2.1 []
        { w0 with
          channels := [true],
          events := [.timing "func.timing" ["func_name=f"] 1] }
      = .error .closedChannel :=
  ⟨rfl, rfl⟩

/-- Claim C1 (amended): the stop callback of a timing context is
single-call-only.  The first invocation emits the "timing" measurement
exactly once and closes the watchdog channel, releasing the watchdog
goroutine (no leak); any further invocation panics on `close(doneC)` and
emits nothing.  (`ReportClosureFuncTiming`'s closure is the same `runStop`
body and shares this contract.) -/
theorem stop_single_call_contract (w : World) (s : Sink) (h : w.client = some s)
    (ctx : Nat) (caller fn : String) (tags stopTags stopTags2 : List Tags) :
    ∃ cid arr w2,
      (reportTiming ctx caller fn tags w).2.1 = .real cid arr ∧
      runStop (.real cid arr) stopTags (reportTiming ctx caller fn tags w).2.2
        = .ok w2 ∧
      w2.events = (reportTiming ctx caller fn tags w).2.2.events ++
        [.timing "func.timing" (arr ++ JoinTags w.config stopTags) 1] ∧
      watchdogStopped w2 cid ∧
      runStop (.real cid arr) stopTags2 w2 = .error .closedChannel := by
  rw [reportTiming_some w s h ctx caller fn tags]
  refine ⟨w.channels.length,
    JoinTags w.config tags ++
      [getSingleTag w.config "func_name" (if fn = "" then caller else fn)],
    { w with channels := w.channels ++ [true],
             events := w.events ++
               [.timing "func.timing"
                 ((JoinTags w.config tags ++
                   [getSingleTag w.config "func_name" (if fn = "" then caller else fn)])
                   ++ JoinTags w.config stopTags) 1] },
    rfl, runStop_fresh w s h _ stopTags, rfl, ?_, ?_⟩
  · show (w.channels ++ [true])[w.channels.length]? = some true
    exact getElem?_concat_len _ _
  · exact runStop_closed _ _ _ _ (getElem?_concat_len _ _)

theorem stop_single_call_contract_witness :
    w0.client = some Sink.telegraf ∧
    (∃ cid arr w2,
      (reportTiming 0 "" "f" [] w0).2.1 = .real cid arr ∧
      runStop (.real cid arr) [] (reportTiming 0 "" "f" [] w0).2.2 = .ok w2 ∧
      w2.events = (reportTiming 0 "" "f" [] w0).2.2.events ++
        [.timing "func.timing" (arr ++ JoinTags w0.config []) 1] ∧
      watchdogStopped w2 cid ∧
      runStop (.real cid arr) [] w2 = .error .closedChannel) :=
  ⟨rfl, stop_single_call_contract w0 .telegraf rfl 0 "" "f" [] [] []⟩

/-- Claim C8 counterexample: in the timing emission, stop-time tags are
appended after the captured tag array, so with any stop-time tag the
`func_name` tag is not the last element of the emitted tag array: here the
array is `["a=1", "func_name=f", "b=2"]`, whose last element is `"b=2"`. -/
theorem funcName_not_last_in_timing_cex :
    runStop (reportTiming 0 "" "f" [[("a", "1")]] w0).2.1 [[("b", "2")]]
        (reportTiming 0 "" "f" [[("a", "1")]] w0).2.2
      = .ok { w0 with
              channels := [true],
              events := [.timing "func.timing" ["a=1", "func_name=f", "b=2"] 1] } ∧
    (["a=1", "func_name=f", "b=2"] : List String).getLast?
      ≠ some (getSingleTag cfg0 "func_name" "f") :=
  ⟨rfl, by decide⟩

/-- Claim C8 (amended): every counter emitted by `reportFunc` carries the
`func_name` tag as the last element of its tag array, after all
caller-supplied tags; the "timing" emission carries the `func_name` tag as
the last element of the start-time portion, with any stop-time tags appended
after it — so `func_name` is always present and is last exactly when no
stop-time tags are rendered. -/
theorem funcName_tag_placement (w : World) (s : Sink) (h : w.client = some s)
    (ctx : Nat) (caller fn action : String) (hfn : fn ≠ "")
    (tags stopTags : List Tags) :
    (reportFunc fn action tags w).events =
      w.events ++ [.incr ("func." ++ action)
        (JoinTags w.config tags ++ [getSingleTag w.config "func_name" fn])
        sampleRate] ∧
    ∃ w2,
      runStop (reportTiming ctx caller fn tags w).2.1 stopTags
          (reportTiming ctx caller fn tags w).2.2 = .ok w2 ∧
      w2.events = w.events ++
        [.timing "func.timing"
          ((JoinTags w.config tags ++ [getSingleTag w.config "func_name" fn])
            ++ JoinTags w.config stopTags) 1] := by
  constructor
  · simp [reportFunc, h]
  · rw [reportTiming_some w s h ctx caller fn tags, if_neg hfn]
    exact ⟨_, runStop_fresh w s h _ stopTags, rfl⟩

theorem funcName_tag_placement_witness :
    w0.client = some Sink.telegraf ∧ ("f" : String) ≠ "" ∧
    ((reportFunc "f" "called" [[("a", "1")]] w0).events =
      w0.events ++ [.incr ("func." ++ "called")
        (JoinTags w0.config [[("a", "1")]] ++
          [getSingleTag w0.config "func_name" "f"]) sampleRate] ∧
    ∃ w2,
      runStop (reportTiming 0 "" "f" [[("a", "1")]] w0).2.1 [[("b", "2")]]
          (reportTiming 0 "" "f" [[("a", "1")]] w0).2.2 = .ok w2 ∧
      w2.events = w0.events ++
        [.timing "func.timing"
          ((JoinTags w0.config [[("a", "1")]] ++
            [getSingleTag w0.config "func_name" "f"])
            ++ JoinTags w0.config [[("b", "2")]]) 1]) :=
  ⟨rfl, by decide,
    funcName_tag_placement w0 .telegraf rfl 0 "" "f" "called" (by decide)
      [[("a", "1")]] [[("b", "2")]]⟩

/-- Claim C9: for a single instrumentation context created by
`ReportNamedFuncCallAndTimingWithErr` whose closure runs once, the "called"
emission precedes the "timing" emission, which precedes the "error" emission
(present exactly when the observed error is non-nil): the event log is
extended by exactly `["func.called", "func.timing"]` and then
`["func.error"]` when an error is observed. -/
theorem called_timing_error_order (w : World) (s : Sink) (h : w.client = some s)
    (fn : String) (tags stopTags : List Tags) (isErr : Bool) :
    ∃ w2,
      runErrClosure (ReportNamedFuncCallAndTimingWithErr fn tags w).1 isErr stopTags
          (ReportNamedFuncCallAndTimingWithErr fn tags w).2 = .ok w2 ∧
      w2.events.map Event.name =
        w.events.map Event.name ++ ["func.called", "func.timing"] ++
          (if isErr then ["func.error"] else []) := by
  obtain ⟨cl, cfg, tr, evs, chs⟩ := w
  simp only at h
  subst h
  cases isErr <;>
    simp [ReportNamedFuncCallAndTimingWithErr, reportFunc, reportTiming,
      runErrClosure, runStop, ReportClosureFuncError, getElem?_concat_len,
      set_concat_len, Event.name, List.map_append]

theorem called_timing_error_order_witness :
    w0.client = some Sink.telegraf ∧
    (∃ w2,
      runErrClosure (ReportNamedFuncCallAndTimingWithErr "f" [] w0).1 true []
          (ReportNamedFuncCallAndTimingWithErr "f" [] w0).2 = .ok w2 ∧
      w2.events.map Event.name =
        w0.events.map Event.name ++ ["func.called", "func.timing"] ++
          (if true then ["func.error"] else [])) :=
  ⟨rfl, called_timing_error_order w0 .telegraf rfl "f" [] [] true⟩

end Metrics
